import Mathlib

/-!
Verification development for the telnet honeypot server (src/honeypot.c).

The file shallowly embeds the three algorithmic pieces of the program:

* `send_command` — the compare-and-set negotiation reply (honeypot.c lines 163-184),
  together with the four global option tables;
* `negotiate_telnet` — the option-negotiation state machine (lines 228-331),
  including `set_options` (lines 189-223) and the sub-negotiation buffer;
* `readline` — the character-at-a-time line editor (lines 97-142);
* `handle_connection` — the per-connection session loop (lines 373-440).

Bytes are modelled as `Nat` (the C code reads into `unsigned char`, so `getc`
returning `EOF = -1` appears as the byte `255`, which is exactly `IAC`; the
model reproduces this).  The connection input is a finite list of bytes plus
an end-of-file flag mirroring the `FILE` EOF indicator of `input`.  Output
written to the connection is collected as a byte list.  Loops are expressed
with an explicit fuel argument that is always instantiated with
`input.length + 1`; every loop iteration either terminates the loop or
consumes at least one input byte, so this fuel is never exhausted.
-/

namespace Honeypot

/- Modelled from the spec: the repository includes a header "telnet.h" that is
not present under src/.  It defines the standard telnet command and option
codes which the spec names throughout (command escape IAC, the verbs
WILL/WONT/DO/DONT, sub-negotiation brackets SB/SE, NOP, the SEND marker, and
the option codes ECHO, SGA, TTYPE, NAWS, LINEMODE, NEW-ENVIRON).  The values
below are the standard telnet protocol values (RFC 854 and the option RFCs). -/

def IAC : Nat := 255

def DONT : Nat := 254

def DO : Nat := 253

def WONT : Nat := 252

def WILL : Nat := 251

def SB : Nat := 250

def SE : Nat := 240

def NOP : Nat := 241

def SEND : Nat := 1

def ECHO : Nat := 1

def SGA : Nat := 3

def TTYPE : Nat := 24

def NAWS : Nat := 31

def LINEMODE : Nat := 34

def NEW_ENVIRON : Nat := 39

/-- Bytes of a string literal (used to transcribe the fprintf format strings). -/
def strBytes (s : String) : List Nat := s.data.map Char.toNat

/-- Decimal digits of a number, as bytes (the rendering of a %d field). -/
def decBytes (n : Nat) : List Nat := strBytes (Nat.repr n)

/-- The telnet newline sequence sent by `newline(1)` (honeypot.c lines 43-53). -/
def newlineSeq : List Nat := [13, 0, 10]

/-- Output of `newline(n)`: n copies of the telnet newline sequence. -/
def newlineN (n : Nat) : List Nat := (List.replicate n newlineSeq).flatten

/-- State of the negotiation engine: the four option tables (globals
`telnet_options`, `telnet_willack`, `telnet_do_set`, `telnet_will_set`,
honeypot.c lines 148-157, each a 256-entry byte array modelled as a function
zero outside the written entries), the locals of `negotiate_telnet`
(lines 230-236), the alarm state, the EOF indicator of the `input` stream and
the bytes written to `output`.  `sb` holds the bytes written into the
sub-negotiation buffer so far (the C array is this list padded with zeros to
length 1024, `sb_len` is `sb.length`). -/
structure NegState where
  telnet_options : Nat → Nat
  telnet_willack : Nat → Nat
  telnet_do_set : Nat → Nat
  telnet_will_set : Nat → Nat
  term : List Nat
  terminal_width : Nat
  done : Nat
  sb_mode : Bool
  do_echo : Bool
  sb : List Nat
  armed : Bool
  eof : Bool
  out : List Nat

/-- `send_command(cmd, opt)` (honeypot.c lines 163-184): DO/DONT commands are
sent, and `telnet_do_set[opt]` updated, only when `telnet_do_set[opt]`
disagrees with the command; WILL/WONT likewise against `telnet_will_set`.
Any other command is sent raw as `IAC cmd`. -/
def send_command (s : NegState) (cmd opt : Nat) : NegState :=
  if cmd = DO ∨ cmd = DONT then
    if (cmd = DO ∧ ¬ s.telnet_do_set opt = DO) ∨ (cmd = DONT ∧ ¬ s.telnet_do_set opt = DONT) then
      { s with telnet_do_set := fun x => if x = opt then cmd else s.telnet_do_set x,
               out := s.out ++ [IAC, cmd, opt] }
    else s
  else if cmd = WILL ∨ cmd = WONT then
    if (cmd = WILL ∧ ¬ s.telnet_will_set opt = WILL) ∨ (cmd = WONT ∧ ¬ s.telnet_will_set opt = WONT) then
      { s with telnet_will_set := fun x => if x = opt then cmd else s.telnet_will_set x,
               out := s.out ++ [IAC, cmd, opt] }
    else s
  else
    { s with out := s.out ++ [IAC, cmd] }

/-- The stance assignments at the top of `set_options()` (honeypot.c
lines 193-211). -/
def set_options_tables (s : NegState) : NegState :=
  { s with
    telnet_options := fun x =>
      if x = ECHO then WILL else if x = SGA then WILL
      else if x = NEW_ENVIRON then WONT else s.telnet_options x,
    telnet_willack := fun x =>
      if x = ECHO then DONT else if x = SGA then DO
      else if x = NAWS then DO else if x = TTYPE then DO
      else if x = LINEMODE then DONT else if x = NEW_ENVIRON then DO
      else s.telnet_willack x }

/-- The first announcement loop of `set_options()` (honeypot.c lines 215-218):
`for (option = 0; option < n; ++option) if (telnet_options[option])
send_command(telnet_options[option], option)`, phrased by the loop bound. -/
def optionsAnnounce (s : NegState) : Nat → NegState
  | 0 => s
  | o + 1 =>
    let t := optionsAnnounce s o
    if t.telnet_options o = 0 then t else send_command t (t.telnet_options o) o

/-- The second announcement loop of `set_options()` (honeypot.c
lines 219-222), over `telnet_willack`. -/
def willackAnnounce (s : NegState) : Nat → NegState
  | 0 => s
  | o + 1 =>
    let t := willackAnnounce s o
    if t.telnet_willack o = 0 then t else send_command t (t.telnet_willack o) o

/-- `set_options()` (honeypot.c lines 189-223): fill in the server stances,
then announce every non-zero entry of `telnet_options` and `telnet_willack`
(all 256 option codes are visited). -/
def set_options (s : NegState) : NegState :=
  willackAnnounce (optionsAnnounce (set_options_tables s) 256) 256

/-- One `getc(input)` on the modelled stream: at end of input it returns
`EOF = -1`, which the callers store into an `unsigned char`, i.e. the byte
255, and it raises the EOF indicator. -/
def getcb : List Nat → Bool → Nat × List Nat × Bool
  | [], _ => (IAC, [], true)
  | b :: rest, e => (b, rest, e)

/-- One iteration of the `negotiate_telnet` option loop (honeypot.c
lines 246-328) in the case where at least one input byte `b` is available;
`rest` is the remaining input.  Returns the new state and remaining input. -/
def stepIter (s : NegState) (b : Nat) (rest : List Nat) : NegState × List Nat :=
  if b = IAC then
    match rest with
    | [] =>
      -- the second getc hits EOF, which reads as the byte 255 = IAC,
      -- so the `case IAC` arm runs: done = 2
      ({ s with done := 2, eof := true }, [])
    | c :: r1 =>
      if c = SE then
        -- End of extended option mode (lines 253-270)
        let s1 := { s with sb_mode := false }
        if s1.sb.getD 0 0 = TTYPE then
          ({ s1 with armed := false,
                     term := (List.takeWhile (fun x => x != 0) (s1.sb.drop 2)).take 1023,
                     done := s1.done + 1 }, r1)
        else if s1.sb.getD 0 0 = NAWS then
          ({ s1 with armed := false,
                     terminal_width := s1.sb.getD 2 0,
                     done := s1.done + 1 }, r1)
        else (s1, r1)
      else if c = NOP then
        (send_command s NOP 0, r1)
      else if c = WILL ∨ c = WONT then
        -- Will / Wont negotiation (lines 276-290)
        let g := getcb r1 s.eof
        let opt := g.1
        let sA := { s with eof := g.2.2 }
        let sB := if sA.telnet_willack opt = 0 then
            { sA with telnet_willack := fun x => if x = opt then WONT else sA.telnet_willack x }
          else sA
        let sC := send_command sB (sB.telnet_willack opt) opt
        let sD := if c = WILL ∧ opt = TTYPE then
            { sC with out := sC.out ++ [IAC, SB, TTYPE, SEND, IAC, SE] }
          else sC
        (sD, g.2.1)
      else if c = DO ∨ c = DONT then
        -- Do / Dont negotiation (lines 291-302)
        let g := getcb r1 s.eof
        let opt := g.1
        let sA := { s with eof := g.2.2 }
        let sB := if sA.telnet_options opt = 0 then
            { sA with telnet_options := fun x => if x = opt then DONT else sA.telnet_options x }
          else sA
        let sC := send_command sB (sB.telnet_options opt) opt
        let sD := if opt = ECHO then { sC with do_echo := decide (c = DO) } else sC
        (sD, g.2.1)
      else if c = SB then
        -- Begin extended option mode (lines 303-308)
        ({ s with sb_mode := true, sb := [] }, r1)
      else if c = IAC then
        -- IAC IAC: done = 2 (lines 309-312)
        ({ s with done := 2 }, r1)
      else
        (s, r1)
  else if s.sb_mode then
    -- Extended option mode: append if it does not put us over the limit
    (if s.sb.length < 1023 then { s with sb := s.sb ++ [b] } else s, rest)
  else
    (s, rest)

/-- The `while (!feof(stdin) && done < 2)` loop of `negotiate_telnet`
(honeypot.c line 246), with fuel.  `stdin` is a different stream from the
connection stream `input` (`handle_connection` reopens the socket as `input`),
so `feof(stdin)` is constantly false in a forked connection handler; the loop
is governed by `done` alone.  When `getc(input)` hits end of input it yields
the byte 255 twice, which the switch reads as IAC IAC and sets `done = 2`. -/
def negoGo : Nat → NegState → List Nat → NegState × List Nat
  | 0, s, input => (s, input)
  | fuel + 1, s, input =>
    if 2 ≤ s.done then (s, input)
    else
      match input with
      | [] => ({ s with done := 2, eof := true }, [])
      | b :: rest => negoGo fuel (stepIter s b rest).1 (stepIter s b rest).2

/-- Partial run of the same loop: the state after the loop has consumed
exactly the given bytes, with the connection still open (no end-of-file
iteration is appended).  Used to observe intermediate loop states. -/
def negoStepsGo : Nat → NegState → List Nat → NegState
  | 0, s, _ => s
  | _ + 1, s, [] => s
  | fuel + 1, s, b :: rest =>
    if 2 ≤ s.done then s
    else negoStepsGo fuel (stepIter s b rest).1 (stepIter s b rest).2

def negoSteps (s : NegState) (input : List Nat) : NegState :=
  negoStepsGo (input.length + 1) s input

/-- The state at entry of `negotiate_telnet` (honeypot.c lines 230-236):
zeroed option tables, default terminal "ansi", width 80, cleared
sub-negotiation buffer. -/
def negotiate_start : NegState :=
  { telnet_options := fun _ => 0
    telnet_willack := fun _ => 0
    telnet_do_set := fun _ => 0
    telnet_will_set := fun _ => 0
    term := [97, 110, 115, 105]
    terminal_width := 80
    done := 0
    sb_mode := false
    do_echo := false
    sb := []
    armed := false
    eof := false
    out := [] }

/-- The state after `set_options()` and `alarm(1)` (honeypot.c lines 240-243):
the option announcements have been sent and the handshake timer is armed. -/
def negotiate_armed : NegState :=
  { set_options negotiate_start with armed := true }

/-- `negotiate_telnet()` (honeypot.c lines 228-331) on a given connection
input: announce options, arm the timer, run the option loop.  Returns the
final engine state and the input bytes the loop did not consume. -/
def negotiate_telnet (input : List Nat) : NegState × List Nat :=
  negoGo (input.length + 1) negotiate_armed input

/-- The evaluated state after the `telnet_options` announcement loop of
`set_options` starting from the process-start state: the three server
stances (WILL ECHO, WILL SGA, WONT NEW-ENVIRON) have been recorded in
`telnet_will_set` and announced.  Proved equal to the computed state in
`optionsAnnounce_eval` below; kept as an explicit literal so that later
concrete evaluations stay shallow. -/
def negotiate_mid_lit : NegState :=
  { telnet_options := fun x =>
      if x = 1 then 251 else if x = 3 then 251 else if x = 39 then 252 else 0
    telnet_willack := fun x =>
      if x = 1 then 254 else if x = 3 then 253 else if x = 31 then 253
      else if x = 24 then 253 else if x = 34 then 254 else if x = 39 then 253 else 0
    telnet_do_set := fun _ => 0
    telnet_will_set := fun x =>
      if x = 39 then 252 else if x = 3 then 251 else if x = 1 then 251 else 0
    term := [97, 110, 115, 105]
    terminal_width := 80
    done := 0
    sb_mode := false
    do_echo := false
    sb := []
    armed := false
    eof := false
    out := [255, 251, 1, 255, 251, 3, 255, 252, 39] }

/-- The evaluated state at the end of `set_options` (both announcement loops
done): the six client stances have additionally been recorded in
`telnet_do_set` and announced.  Proved equal to the computed state in
`set_options_eval` below. -/
def set_options_done_lit : NegState :=
  { negotiate_mid_lit with
    telnet_do_set := fun x =>
      if x = 39 then 253 else if x = 34 then 254 else if x = 31 then 253
      else if x = 24 then 253 else if x = 3 then 253 else if x = 1 then 254 else 0
    out := [255, 251, 1, 255, 251, 3, 255, 252, 39,
            255, 254, 1, 255, 253, 3, 255, 253, 24, 255, 253, 31, 255, 254, 34, 255, 253, 39] }

/-- The evaluated form of `negotiate_armed`: `set_options_done_lit` with the
handshake timer armed.  Proved equal to `negotiate_armed` in
`negotiate_armed_eq` below. -/
def negotiate_armed_lit : NegState :=
  { set_options_done_lit with armed := true }

/-! ### The line editor `readline` (honeypot.c lines 97-142) -/

/-- Output of `fprintf(output, "\x1b[?25h")`: restore the cursor (line 103). -/
def showCursorSeq : List Nat := strBytes "\x1b[?25h"

/-- Output of `fprintf(output, "\x1b[?25l")`: hide the cursor again (line 140). -/
def hideCursorSeq : List Nat := strBytes "\x1b[?25l"

/-- Output of `fprintf(output, "\x1b[%dD\x1b[K", i)`: move the cursor left by
`i` columns and clear to end of line (the masked-field backspace, line 121). -/
def eraseMaskedSeq (i : Nat) : List Nat := [27, 91] ++ decBytes i ++ [68, 27, 91, 75]

/-- State of one `readline` call: the cursor `i` (a C `int`, so modelled as
`Int`: the code transiently sets it to -1 and relies on the `++i` of the for
loop), the caller's buffer (a 1024-byte array modelled as a function, whose
initial contents are the caller's uninitialized stack memory), the remaining
connection input and its EOF indicator, the bytes written to `output`, and two
control flags: `exited` records that `_exit` was called, `broke` that the
`break` on a line terminator ran (the loop then finalizes the buffer). -/
structure RlState where
  i : Int
  buf : Nat → Nat
  input : List Nat
  eof : Bool
  out : List Nat
  exited : Bool
  broke : Bool

/-- Body of one `readline` loop iteration after the character `c` has been
read (and after the NUL skip), acting on remaining input `rest`
(honeypot.c lines 112-135).  The cursor updates mirror the C `int`
arithmetic: `continue` branches reflect the `++i` of the for loop. -/
def readlineDispatch (pw : Bool) (st : RlState) (c : Nat) (rest : List Nat) : RlState :=
  if c = 10 ∨ c = 13 then
    -- line terminator: newline(1); break (the caller then finalizes)
    { st with input := rest, out := st.out ++ newlineSeq, broke := true }
  else if c = 8 ∨ c = 127 then
    if st.i = 0 then
      -- if (!i) { i = -1; continue; }  — with the ++i this is a no-op
      { st with input := rest }
    else if pw then
      -- erase the whole masked echo and reset the cursor: i = -1; continue
      { st with input := rest, out := st.out ++ eraseMaskedSeq st.i.toNat, i := (-1 : Int) + 1 }
    else
      -- "\b \b"; i -= 2; continue  — with the ++i the cursor moves one left
      { st with input := rest, out := st.out ++ [8, 32, 8], i := st.i - 2 + 1 }
  else if c = 255 then
    -- a command escape (or EOF read as 0xff) mid-field: _exit(EXIT_SUCCESS)
    { st with input := rest, exited := true }
  else
    -- store and echo (lines 133-135), cursor advances via the ++i
    { st with input := rest,
              buf := fun x => if x = st.i.toNat then c else st.buf x,
              out := st.out ++ [if pw then 42 else c],
              i := st.i + 1 }

/-- One `readline` loop iteration given the first available input byte `b`
and remaining input `rest`: `c = getc(input); if (!c) c = getc(input);`
(honeypot.c lines 109-111), then dispatch. -/
def readlineStep (pw : Bool) (st : RlState) (b : Nat) (rest : List Nat) : RlState :=
  if b = 0 then
    match rest with
    | [] =>
      -- the second getc hits EOF: c = 0xff, and the 0xff arm calls _exit
      { st with input := [], eof := true, exited := true }
    | c :: rest2 => readlineDispatch pw st c rest2
  else
    readlineDispatch pw st b rest

/-- Code after the `readline` loop (honeypot.c lines 137-141):
`buffer[i] = 0` and hide the cursor. -/
def rlFinalize (st : RlState) : RlState :=
  { st with buf := fun x => if x = st.i.toNat then 0 else st.buf x,
            out := st.out ++ hideCursorSeq }

/-- The `for (i = 0; i < size - 1; ++i)` loop of `readline` (honeypot.c
lines 106-136), with fuel.  Iteration order follows the C code: loop
condition, `feof` check (which calls `_exit`), read, dispatch.  The C
comparison `i < size - 1` is between an `int` and a `size_t`; the model uses
integer subtraction, which matches the C behaviour for every `size ≥ 1`
(both call sites pass 1024). -/
def readlineGo (size : Nat) (pw : Bool) : Nat → RlState → RlState
  | 0, st => st
  | fuel + 1, st =>
    if st.exited then st
    else if st.broke then rlFinalize st
    else if (size : Int) - 1 ≤ st.i then rlFinalize st
    else if st.eof then { st with exited := true }
    else
      match st.input with
      | [] =>
        -- getc hits EOF: c = 0xff, the 0xff arm calls _exit
        { st with eof := true, exited := true }
      | b :: rest => readlineGo size pw fuel (readlineStep pw st b rest)

/-- `readline(buffer, size, password)` (honeypot.c lines 97-142): restore the
cursor, run the editing loop on the connection input, and (unless `_exit`
ran) finalize the buffer and hide the cursor.  `buf0` is the initial content
of the caller's buffer. -/
def readline (size : Nat) (pw : Bool) (buf0 : Nat → Nat) (input : List Nat) (eof : Bool) :
    RlState :=
  readlineGo size pw (input.length + 1)
    { i := 0, buf := buf0, input := input, eof := eof,
      out := showCursorSeq, exited := false, broke := false }

/-- The C string left in the buffer after a `readline` call: the bytes below
the final cursor, up to the first NUL (the cells below the cursor were all
written during the call; `rlFinalize` wrote the terminating NUL at the
cursor). -/
def lineOf (st : RlState) : List Nat :=
  List.takeWhile (fun b => b != 0) ((List.range st.i.toNat).map st.buf)

/-! ### The session loop `handle_connection` (honeypot.c lines 373-440) -/

def userPrompt : List Nat := strBytes "\x1b[1;32mUsername: \x1b[0m"

def passPrompt : List Nat := strBytes "\x1b[1;32mPassword: \x1b[0m"

def clearSeq : List Nat := strBytes "\x1b[H\x1b[2J\x1b[?25l"

def headerLine : List Nat :=
  strBytes "                  \x1b[1mkexec.com Administration Console\x1b[0m"

def invalidMsg : List Nat :=
  strBytes "\x1b[1;31mInvalid credentials. Please try again.\x1b[0m"

def hintMsg : List Nat :=
  strBytes "\x1b[1;34mBe sure to include the domain in your username (e.g. @gmail.com)."

/-- The terminal-title and welcome banner bytes emitted by
`handle_connection` after `negotiate_telnet` returns and before the first
prompt (honeypot.c lines 396-412). -/
def welcomeOut : List Nat :=
  strBytes "\x1bkWelcome to kexec.com\x1b\\" ++
  strBytes "\x1b]1;Welcome to kexec.com\x07" ++
  strBytes "\x1b]2;Welcome to kexec.com\x07" ++
  clearSeq ++ headerLine ++ newlineN 3 ++
  strBytes "This console uses \x1b[1;34mGoogle App Engine\x1b[0m for authentication. To login as" ++
  newlineN 1 ++
  strBytes "an administrator, enter the admin account credentials. If you do not" ++
  newlineN 1 ++
  strBytes "yet have an account on kexec, enter your Google credentials to begin." ++
  newlineN 4

/-- Output of the tail of one credential cycle, after the password was read
(honeypot.c lines 419-436): two newlines, one newline after the simulated
delay, the invalid-credentials message, clear screen and header, two
newlines, and the domain hint when the username contains no `@` (byte 64).
The `sleep` calls only affect timing and produce no bytes. -/
def postLoginOut (u : List Nat) : List Nat :=
  newlineN 2 ++ newlineN 1 ++ invalidMsg ++ clearSeq ++ headerLine ++ newlineN 2 ++
  (if 64 ∈ u then [] else hintMsg ++ newlineN 2)

/-- Output written by `SIGALRM_handler` (honeypot.c lines 71-80) to the
connection when the handshake timer fires: restore cursor, clear screen, the
rejection banner, one telnet newline; the process then exits. -/
def SIGALRM_handler_out : List Nat :=
  strBytes "\x1b[?25h\x1b[0m\x1b[H\x1b[2J" ++
  strBytes "\x1b[1;31m*** You must connect using a real telnet client. ***\x1b[0m" ++
  newlineN 1

/-- State threaded through the `while (1)` credential loop of
`handle_connection` (honeypot.c lines 414-437): the two caller buffers, the
remaining connection input with its EOF flag, the bytes written since
`negotiate_telnet` returned, and the entries appended to the log file
(modelled as (ipaddr, username, password) triples). -/
structure SessState where
  bufU : Nat → Nat
  bufP : Nat → Nat
  input : List Nat
  eof : Bool
  out : List Nat
  logs : List (List Nat × List Nat × List Nat)

/-- The `while (1)` loop of `handle_connection`, with fuel: prompt and read a
username, prompt and read a password, log the pair, show the rejection, and
loop.  The loop only ends because a `readline` call hits `_exit`.  Each
successful cycle consumes input bytes, so fuel `input.length + 1` is never
exhausted.  The `printf` to the server console and the `sleep` calls write
no bytes to the connection and are not modelled. -/
def sessionGo (ip : List Nat) : Nat → SessState → SessState
  | 0, s => s
  | fuel + 1, s =>
    let r1 := readline 1024 false s.bufU s.input s.eof
    if r1.exited then
      { s with out := s.out ++ userPrompt ++ r1.out }
    else
      let r2 := readline 1024 true s.bufP r1.input r1.eof
      if r2.exited then
        { s with bufU := r1.buf,
                 out := s.out ++ userPrompt ++ r1.out ++ passPrompt ++ r2.out }
      else
        let u := lineOf r1
        sessionGo ip fuel
          { bufU := r1.buf, bufP := r2.buf, input := r2.input, eof := r2.eof,
            out := s.out ++ userPrompt ++ r1.out ++ passPrompt ++ r2.out ++ postLoginOut u,
            logs := s.logs ++ [(ip, u, lineOf r2)] }

/-- Result of `handle_connection`: the final negotiation state, the input the
negotiation loop did not consume, everything written to the connection after
`negotiate_telnet` returned, and the log entries. -/
structure ConnResult where
  neg : NegState
  negRest : List Nat
  sessOut : List Nat
  logs : List (List Nat × List Nat × List Nat)

/-- `handle_connection(fd, ipaddr)` (honeypot.c lines 373-440): negotiate,
print the titles and the welcome banner, then run the credential loop.
`ubuf`/`pbuf` are the initial (uninitialized) contents of the `username` and
`password` stack buffers. -/
def handle_connection (ip : List Nat) (ubuf pbuf : Nat → Nat) (input : List Nat) : ConnResult :=
  let n := negotiate_telnet input
  let sf := sessionGo ip (n.2.length + 1)
    { bufU := ubuf, bufP := pbuf, input := n.2, eof := n.1.eof, out := [], logs := [] }
  { neg := n.1, negRest := n.2, sessOut := welcomeOut ++ sf.out, logs := sf.logs }

/-! ### Evaluation lemmas

The announcement loops of `set_options` visit all 256 option codes, which
makes direct kernel evaluation of later states deep; the two loops are
therefore evaluated once here, and all later concrete runs start from the
literal state. -/

set_option maxRecDepth 4200

theorem optionsAnnounce_eval :
    optionsAnnounce (set_options_tables negotiate_start) 256 = negotiate_mid_lit := rfl

theorem willackAnnounce_eval :
    willackAnnounce negotiate_mid_lit 256 = set_options_done_lit := rfl

theorem set_options_eval : set_options negotiate_start = set_options_done_lit := by
  show willackAnnounce (optionsAnnounce (set_options_tables negotiate_start) 256) 256
      = set_options_done_lit
  rw [optionsAnnounce_eval]
  exact willackAnnounce_eval

theorem negotiate_armed_eq : negotiate_armed = negotiate_armed_lit := by
  unfold negotiate_armed negotiate_armed_lit
  rw [set_options_eval]

theorem negotiate_telnet_lit (input : List Nat) :
    negotiate_telnet input = negoGo (input.length + 1) negotiate_armed_lit input := by
  unfold negotiate_telnet
  rw [negotiate_armed_eq]

theorem negoSteps_lit (input : List Nat) :
    negoSteps negotiate_armed input = negoStepsGo (input.length + 1) negotiate_armed_lit input := by
  unfold negoSteps
  rw [negotiate_armed_eq]

/-! ### General helper lemmas -/

theorem self_ne_append_three (l : List Nat) (a b c : Nat) : ¬ l = l ++ [a, b, c] := by
  intro h
  have hlen := congrArg List.length h
  simp at hlen

theorem takeWhile_nz_all (l : List Nat) (h : ∀ x ∈ l, ¬ x = 0) :
    List.takeWhile (fun b => b != 0) l = l := by
  induction l with
  | nil => rfl
  | cons a t ih =>
    have ha : (a != 0) = true := by
      simpa using h a (List.mem_cons_self a t)
    rw [List.takeWhile_cons, ha]
    simp [ih fun x hx => h x (List.mem_cons_of_mem a hx)]

theorem take_ge_length (l : List Nat) (n : Nat) (h : l.length ≤ n) : l.take n = l :=
  List.take_of_length_le h

/-! ### Claim C1: compare-and-set negotiation replies -/

/-- C1: for every option code and both negotiation directions, `send_command`
with a DO/DONT (respectively WILL/WONT) verb transmits the three-byte reply
IAC,verb,option if and only if the currently agreed value for that option in
the corresponding table (`telnet_do_set` / `telnet_will_set`) differs from the
verb; it then records the verb as the agreed value.  When table and verb
already match it emits no output and changes nothing, so replaying an
identical command never produces a duplicate reply. -/
theorem claim_C1_send_command (s : NegState) (cmd opt : Nat) :
    ((cmd = DO ∨ cmd = DONT) →
      (((send_command s cmd opt).out = s.out ++ [IAC, cmd, opt]) ↔ ¬ s.telnet_do_set opt = cmd)
      ∧ ((send_command s cmd opt).telnet_do_set opt = cmd)
      ∧ (s.telnet_do_set opt = cmd → send_command s cmd opt = s)
      ∧ ((send_command (send_command s cmd opt) cmd opt).out = (send_command s cmd opt).out))
    ∧ ((cmd = WILL ∨ cmd = WONT) →
      (((send_command s cmd opt).out = s.out ++ [IAC, cmd, opt]) ↔ ¬ s.telnet_will_set opt = cmd)
      ∧ ((send_command s cmd opt).telnet_will_set opt = cmd)
      ∧ (s.telnet_will_set opt = cmd → send_command s cmd opt = s)
      ∧ ((send_command (send_command s cmd opt) cmd opt).out = (send_command s cmd opt).out)) := by
  simp only [DO, DONT, WILL, WONT, IAC]
  constructor
  · rintro (rfl | rfl)
    · by_cases h : s.telnet_do_set opt = 253
      · simp [send_command, DO, DONT, WILL, WONT, IAC, h, self_ne_append_three]
      · simp [send_command, DO, DONT, WILL, WONT, IAC, h]
    · by_cases h : s.telnet_do_set opt = 254
      · simp [send_command, DO, DONT, WILL, WONT, IAC, h, self_ne_append_three]
      · simp [send_command, DO, DONT, WILL, WONT, IAC, h]
  · rintro (rfl | rfl)
    · by_cases h : s.telnet_will_set opt = 251
      · simp [send_command, DO, DONT, WILL, WONT, IAC, h, self_ne_append_three]
      · simp [send_command, DO, DONT, WILL, WONT, IAC, h]
    · by_cases h : s.telnet_will_set opt = 252
      · simp [send_command, DO, DONT, WILL, WONT, IAC, h, self_ne_append_three]
      · simp [send_command, DO, DONT, WILL, WONT, IAC, h]

/-- Witness for C1 at a concrete state and option. -/
theorem claim_C1_send_command_witness :
    (DO = DO ∨ DO = DONT)
    ∧ (((send_command negotiate_start DO 5).out = negotiate_start.out ++ [IAC, DO, 5])
        ↔ ¬ negotiate_start.telnet_do_set 5 = DO) :=
  ⟨Or.inl rfl, ((claim_C1_send_command negotiate_start DO 5).1 (Or.inl rfl)).1⟩

/-! ### Claim C2: bounded sub-negotiation buffer -/

theorem send_command_sb (s : NegState) (cmd opt : Nat) :
    (send_command s cmd opt).sb = s.sb := by
  unfold send_command
  split
  · split <;> rfl
  · split
    · split <;> rfl
    · rfl

/-- Every negotiation-loop iteration keeps the sub-negotiation buffer within
1023 stored bytes (the C write index `sb_len` never reaches
`sizeof(sb) - 1 = 1023`, so every write lands strictly below index 1023 and
hence strictly below the capacity 1024). -/
theorem stepIter_sb_le (s : NegState) (b : Nat) (rest : List Nat)
    (h : s.sb.length ≤ 1023) : ((stepIter s b rest).1).sb.length ≤ 1023 := by
  unfold stepIter
  repeat' split
  all_goals
    simp_all [send_command_sb, apply_ite (fun p : NegState × List Nat => p.1.sb.length),
      apply_ite (fun t : NegState => t.sb.length)]
  all_goals omega

theorem negoGo_zero (s : NegState) (input : List Nat) : negoGo 0 s input = (s, input) := rfl

theorem negoGo_succ_nil (f : Nat) (s : NegState) :
    negoGo (f + 1) s []
      = if 2 ≤ s.done then (s, []) else ({ s with done := 2, eof := true }, []) := rfl

theorem negoGo_succ_cons (f : Nat) (s : NegState) (b : Nat) (rest : List Nat) :
    negoGo (f + 1) s (b :: rest)
      = if 2 ≤ s.done then (s, b :: rest)
        else negoGo f (stepIter s b rest).1 (stepIter s b rest).2 := by
  show (if 2 ≤ s.done then (s, b :: rest)
        else negoGo f (stepIter s b rest).1 (stepIter s b rest).2) = _
  rfl

theorem negoStepsGo_succ_cons (f : Nat) (s : NegState) (b : Nat) (p : List Nat) :
    negoStepsGo (f + 1) s (b :: p)
      = if 2 ≤ s.done then s
        else negoStepsGo f (stepIter s b p).1 (stepIter s b p).2 := rfl

theorem negoGo_sb_le (fuel : Nat) :
    ∀ (s : NegState) (input : List Nat), s.sb.length ≤ 1023 →
      ((negoGo fuel s input).1).sb.length ≤ 1023 := by
  induction fuel with
  | zero => intro s input h; simpa [negoGo_zero] using h
  | succ f ih =>
    intro s input h
    match input with
    | [] =>
      rw [negoGo_succ_nil]
      split
      · simpa using h
      · simpa using h
    | b :: rest =>
      rw [negoGo_succ_cons]
      split
      · simpa using h
      · exact ih _ _ (stepIter_sb_le _ _ _ h)

/-- Feeding a payload into the cleared buffer keeps exactly its first 1023
bytes and drops the rest, consuming every byte and producing no output. -/
theorem negoSteps_payload (p : List Nat) :
    ∀ (s : NegState), s.sb_mode = true → s.done < 2 → (∀ x ∈ p, ¬ x = IAC) →
      (negoSteps s p).sb = s.sb ++ p.take (1023 - s.sb.length)
      ∧ (negoSteps s p).sb_mode = true
      ∧ (negoSteps s p).done = s.done
      ∧ (negoSteps s p).out = s.out := by
  induction p with
  | nil =>
    intro s hmode _ _
    simp [negoSteps, negoStepsGo, hmode]
  | cons b p ih =>
    intro s hmode hdone hp
    have hb : ¬ b = IAC := hp b (List.mem_cons_self b p)
    have hp2 : ∀ x ∈ p, ¬ x = IAC := fun x hx => hp x (List.mem_cons_of_mem b hx)
    have hstep : stepIter s b p
        = (if s.sb.length < 1023 then { s with sb := s.sb ++ [b] } else s, p) := by
      simp [stepIter, hb, hmode]
    have hun : negoSteps s (b :: p)
        = negoSteps (if s.sb.length < 1023 then { s with sb := s.sb ++ [b] } else s) p := by
      show negoStepsGo (p.length + 1 + 1) s (b :: p) = _
      rw [negoStepsGo_succ_cons, if_neg (by omega), hstep]
      rfl
    rw [hun]
    by_cases hlt : s.sb.length < 1023
    · rw [if_pos hlt]
      have := ih { s with sb := s.sb ++ [b] } (by simpa using hmode) (by simpa using hdone)
        hp2
      simp at this
      rcases this with ⟨h1, h2, h3, h4⟩
      refine ⟨?_, h2, h3, h4⟩
      rw [h1]
      have hx : 1023 - s.sb.length = (1023 - (s.sb.length + 1)) + 1 := by omega
      rw [hx]
      simp [List.take_succ_cons]
    · rw [if_neg hlt]
      have := ih s hmode hdone hp2
      rcases this with ⟨h1, h2, h3, h4⟩
      refine ⟨?_, h2, h3, h4⟩
      rw [h1]
      have hx : 1023 - s.sb.length = 0 := by omega
      simp [hx]

/-- C2: every write into the sub-negotiation buffer happens at an index
strictly below its capacity: a payload byte is appended only while fewer than
1023 bytes are stored (so every write index is below 1023 < 1024), a payload
byte arriving on a full buffer leaves the whole state unchanged apart from
consuming the byte (dropped silently, no output), the buffer never exceeds
1023 bytes on any run of `negotiate_telnet`, a payload fed after SB is
captured as exactly its first 1023 bytes, and the terminal type and width
extracted at SE are computed from the captured buffer alone. -/
theorem claim_C2_sb_bounded :
    (∀ (s : NegState) (b : Nat) (rest : List Nat), s.sb.length ≤ 1023 →
      ((stepIter s b rest).1).sb.length ≤ 1023)
    ∧ (∀ (s : NegState) (b : Nat) (rest : List Nat), s.sb_mode = true → ¬ b = IAC →
        (s.sb.length < 1023 → stepIter s b rest = ({ s with sb := s.sb ++ [b] }, rest))
        ∧ (1023 ≤ s.sb.length → stepIter s b rest = (s, rest)))
    ∧ (∀ input : List Nat, ((negotiate_telnet input).1).sb.length ≤ 1023)
    ∧ (∀ (s : NegState) (p : List Nat), s.sb_mode = true → s.done < 2 → s.sb = [] →
        (∀ x ∈ p, ¬ x = IAC) → (negoSteps s p).sb = p.take 1023 ∧ (negoSteps s p).out = s.out)
    ∧ (∀ (s : NegState) (rest : List Nat), s.sb.getD 0 0 = TTYPE →
        ((stepIter s IAC (SE :: rest)).1).term
          = (List.takeWhile (fun x => x != 0) (s.sb.drop 2)).take 1023)
    ∧ (∀ (s : NegState) (rest : List Nat), ¬ s.sb.getD 0 0 = TTYPE → s.sb.getD 0 0 = NAWS →
        ((stepIter s IAC (SE :: rest)).1).terminal_width = s.sb.getD 2 0) := by
  refine ⟨stepIter_sb_le, ?_, ?_, ?_, ?_, ?_⟩
  · intro s b rest hmode hb
    constructor
    · intro hlt
      simp [stepIter, hb, hmode, hlt]
    · intro hge
      simp [stepIter, hb, hmode]
      omega
  · intro input
    rw [negotiate_telnet_lit]
    exact negoGo_sb_le _ _ _ (by decide)
  · intro s p hmode hdone hsb hp
    have := negoSteps_payload p s hmode hdone hp
    rcases this with ⟨h1, _, _, h4⟩
    exact ⟨by simpa [hsb] using h1, h4⟩
  · intro s rest hty
    have hty2 : s.sb[0]?.getD 0 = 24 := by simpa [TTYPE] using hty
    simp [stepIter, SE, TTYPE, hty2]
  · intro s rest hnty hnaws
    have h24 : ¬ s.sb[0]?.getD 0 = 24 := by simpa [TTYPE] using hnty
    have h31 : s.sb[0]?.getD 0 = 31 := by simpa [NAWS] using hnaws
    simp [stepIter, SE, TTYPE, NAWS, h24, h31]

/-- Witness for C2 at a concrete state and payload. -/
theorem claim_C2_sb_bounded_witness :
    ({ negotiate_armed_lit with sb_mode := true } : NegState).sb_mode = true
    ∧ ({ negotiate_armed_lit with sb_mode := true } : NegState).done < 2
    ∧ ({ negotiate_armed_lit with sb_mode := true } : NegState).sb = []
    ∧ (∀ x ∈ [24, 0, 120], ¬ x = IAC)
    ∧ ((negoSteps { negotiate_armed_lit with sb_mode := true } [24, 0, 120]).sb
        = [24, 0, 120].take 1023
       ∧ (negoSteps { negotiate_armed_lit with sb_mode := true } [24, 0, 120]).out
        = ({ negotiate_armed_lit with sb_mode := true } : NegState).out) :=
  ⟨rfl, by decide, rfl, by decide,
    claim_C2_sb_bounded.2.2.2.1 { negotiate_armed_lit with sb_mode := true } [24, 0, 120]
      rfl (by decide) rfl (by decide)⟩

/-! ### Claim C3: the line-editor cursor invariant -/

theorem readlineGo_zero (size : Nat) (pw : Bool) (st : RlState) :
    readlineGo size pw 0 st = st := rfl

theorem readlineGo_succ (size : Nat) (pw : Bool) (f : Nat) (st : RlState) :
    readlineGo size pw (f + 1) st
      = if st.exited then st
        else if st.broke then rlFinalize st
        else if (size : Int) - 1 ≤ st.i then rlFinalize st
        else if st.eof then { st with exited := true }
        else match st.input with
          | [] => { st with eof := true, exited := true }
          | b :: rest => readlineGo size pw f (readlineStep pw st b rest) := rfl

theorem readlineGo_succ_cons (size : Nat) (pw : Bool) (f : Nat) (i0 : Int)
    (bf0 : Nat → Nat) (b : Nat) (rest : List Nat) (e0 o0x : Bool) (o0 : List Nat)
    (r0 : Bool) :
    readlineGo size pw (f + 1)
      { i := i0, buf := bf0, input := b :: rest, eof := e0, out := o0,
        exited := o0x, broke := r0 }
      = if o0x then
          { i := i0, buf := bf0, input := b :: rest, eof := e0, out := o0,
            exited := o0x, broke := r0 }
        else if r0 then
          rlFinalize
            { i := i0, buf := bf0, input := b :: rest, eof := e0, out := o0,
              exited := o0x, broke := r0 }
        else if (size : Int) - 1 ≤ i0 then
          rlFinalize
            { i := i0, buf := bf0, input := b :: rest, eof := e0, out := o0,
              exited := o0x, broke := r0 }
        else if e0 then
          { i := i0, buf := bf0, input := b :: rest, eof := e0, out := o0,
            exited := true, broke := r0 }
        else readlineGo size pw f (readlineStep pw
          { i := i0, buf := bf0, input := b :: rest, eof := e0, out := o0,
            exited := o0x, broke := r0 } b rest) := rfl

theorem rlFinalize_i (st : RlState) : (rlFinalize st).i = st.i := rfl

/-- One fully processed input event moves the cursor by at most one position
upward and never below zero. -/
theorem readlineStep_i_bounds (pw : Bool) (st : RlState) (b : Nat) (rest : List Nat)
    (h : 0 ≤ st.i) :
    0 ≤ (readlineStep pw st b rest).i ∧ (readlineStep pw st b rest).i ≤ st.i + 1 := by
  unfold readlineStep readlineDispatch
  repeat' split
  all_goals simp_all
  all_goals omega

/-- The cursor bound is a loop invariant of the `readline` editing loop. -/
theorem readlineGo_i_bounds (size : Nat) (pw : Bool) (fuel : Nat) :
    ∀ st : RlState, 0 ≤ st.i → st.i ≤ (size : Int) - 1 →
      0 ≤ (readlineGo size pw fuel st).i
      ∧ (readlineGo size pw fuel st).i ≤ (size : Int) - 1 := by
  induction fuel with
  | zero =>
    intro st h0 h1
    rw [readlineGo_zero]
    exact ⟨h0, h1⟩
  | succ f ih =>
    intro st h0 h1
    rw [readlineGo_succ]
    split
    · exact ⟨h0, h1⟩
    · split
      · rw [rlFinalize_i]; exact ⟨h0, h1⟩
      · split
        · rw [rlFinalize_i]; exact ⟨h0, h1⟩
        · split
          · exact ⟨h0, h1⟩
          · split
            · exact ⟨h0, h1⟩
            · rename_i hsz _ b rest _
              have hb := readlineStep_i_bounds pw st b rest h0
              exact ih _ hb.1 (by omega)

/-- C3: for every sequence of bytes fed to `readline` with a buffer of
capacity `size`, the cursor stays in `[0, size-1]`: each fully processed byte
keeps the cursor at least 0 and raises it by at most one, the bound
`0 ≤ i ≤ size-1` is an invariant of the whole loop and holds for the final
state of any `readline` call, and a backspace or delete byte processed while
the cursor is at 0 is a complete no-op (cursor, buffer and output
unchanged), not a wrap or underflow. -/
theorem claim_C3_cursor_invariant :
    (∀ (pw : Bool) (st : RlState) (b : Nat) (rest : List Nat), 0 ≤ st.i →
      0 ≤ (readlineStep pw st b rest).i ∧ (readlineStep pw st b rest).i ≤ st.i + 1)
    ∧ (∀ (size : Nat) (pw : Bool) (buf0 : Nat → Nat) (input : List Nat) (eof : Bool),
        1 ≤ size →
        0 ≤ (readline size pw buf0 input eof).i
        ∧ (readline size pw buf0 input eof).i ≤ (size : Int) - 1)
    ∧ (∀ (pw : Bool) (st : RlState) (b : Nat) (rest : List Nat),
        st.i = 0 → (b = 8 ∨ b = 127) →
        readlineStep pw st b rest = { st with input := rest }) := by
  refine ⟨readlineStep_i_bounds, ?_, ?_⟩
  · intro size pw buf0 input eof hsz
    unfold readline
    exact readlineGo_i_bounds size pw (input.length + 1) _ (by simp) (by simp; omega)
  · intro pw st b rest hi hb
    rcases hb with rfl | rfl
    · simp [readlineStep, readlineDispatch, hi]
    · simp [readlineStep, readlineDispatch, hi]

/-- Witness for C3 at a concrete state and input. -/
theorem claim_C3_cursor_invariant_witness :
    (1 ≤ 1024
     ∧ 0 ≤ (readline 1024 false (fun _ => 0) [97, 8, 8, 13] false).i
     ∧ (readline 1024 false (fun _ => 0) [97, 8, 8, 13] false).i ≤ (1024 : Int) - 1)
    ∧ (({ i := 0, buf := fun _ => 0, input := [8], eof := false, out := [],
          exited := false, broke := false } : RlState).i = 0
       ∧ (8 = 8 ∨ 8 = 127)
       ∧ readlineStep false
           { i := 0, buf := fun _ => 0, input := [8], eof := false, out := [],
             exited := false, broke := false } 8 []
         = { i := 0, buf := fun _ => 0, input := [], eof := false, out := [],
             exited := false, broke := false }) :=
  ⟨⟨by decide,
    claim_C3_cursor_invariant.2.1 1024 false (fun _ => 0) [97, 8, 8, 13] false (by decide)⟩,
   rfl, Or.inl rfl,
   claim_C3_cursor_invariant.2.2 false
     { i := 0, buf := fun _ => 0, input := [8], eof := false, out := [],
       exited := false, broke := false } 8 [] rfl (Or.inl rfl)⟩

/-! ### Claim C4: the doubled command escape IAC IAC -/

theorem negoGo_done (f : Nat) (s : NegState) (input : List Nat) (h : 2 ≤ s.done) :
    negoGo (f + 1) s input = (s, input) := by
  cases input
  · rw [negoGo_succ_nil, if_pos h]
  · rw [negoGo_succ_cons, if_pos h]

/-- The IAC IAC arm of the option loop: `done = 2`, nothing else changes. -/
theorem stepIter_iac_iac (s : NegState) (rest : List Nat) :
    stepIter s IAC (IAC :: rest) = ({ s with done := 2 }, rest) := by
  simp [stepIter, IAC, SE, NOP, WILL, WONT, DO, DONT, SB]

/-- Counterexample to C4 as stated: after the malformed sequence IAC IAC the
connection is not terminated — the session goes on with default capabilities,
and a full credential cycle still happens: the peer then sends "user" and
"pass" and the pair is logged. -/
theorem claim_C4_counterexample :
    (handle_connection [] (fun _ => 0) (fun _ => 0)
        (IAC :: IAC :: [117, 115, 101, 114, 13, 112, 97, 115, 115, 13])).logs
      = [([], [117, 115, 101, 114], [112, 97, 115, 115])]
    ∧ (handle_connection [] (fun _ => 0) (fun _ => 0)
        (IAC :: IAC :: [117, 115, 101, 114, 13, 112, 97, 115, 115, 13])).neg.armed = true := by
  simp only [handle_connection, negotiate_telnet_lit]
  decide

/-- C4 amended: reading IAC IAC makes the negotiation loop stop immediately
(the completion counter is forced to 2) without resolving any capability and
without disarming the handshake timer; `negotiate_telnet` then returns
normally with the default snapshot ("ansi", width 80) and the remaining
input untouched, and `handle_connection` continues the session, emitting the
terminal-title bytes (and the banner and prompts after them).  The
connection is terminated only later, when the still-armed one-second timer
fires and `SIGALRM_handler` prints its rejection banner and exits. -/
theorem claim_C4_iac_iac_amended :
    (∀ (s : NegState) (rest : List Nat),
      stepIter s IAC (IAC :: rest) = ({ s with done := 2 }, rest))
    ∧ (∀ rest : List Nat,
        (negotiate_telnet (IAC :: IAC :: rest)).1.done = 2
        ∧ (negotiate_telnet (IAC :: IAC :: rest)).1.armed = true
        ∧ (negotiate_telnet (IAC :: IAC :: rest)).1.term = [97, 110, 115, 105]
        ∧ (negotiate_telnet (IAC :: IAC :: rest)).1.terminal_width = 80
        ∧ (negotiate_telnet (IAC :: IAC :: rest)).2 = rest)
    ∧ (∀ (rest : List Nat) (ubuf pbuf : Nat → Nat),
        ((handle_connection [] ubuf pbuf (IAC :: IAC :: rest)).sessOut).take 2 = [27, 107]) := by
  refine ⟨stepIter_iac_iac, ?_, ?_⟩
  · intro rest
    have h : negotiate_telnet (IAC :: IAC :: rest)
        = ({ negotiate_armed_lit with done := 2 }, rest) := by
      rw [negotiate_telnet_lit]
      simp only [List.length_cons]
      have hd : ¬ 2 ≤ negotiate_armed_lit.done := by decide
      rw [negoGo_succ_cons, if_neg hd, stepIter_iac_iac]
      exact negoGo_done _ _ _ (Nat.le_refl 2)
    rw [h]
    refine ⟨rfl, rfl, rfl, rfl, rfl⟩
  · intro rest ubuf pbuf
    simp only [handle_connection]
    rw [List.take_append_of_le_length (by decide)]
    decide

/-! ### Claim C5: NUL bytes in the line editor -/

theorem readlineDispatch_input_le (pw : Bool) (st : RlState) (c : Nat) (r : List Nat) :
    (readlineDispatch pw st c r).input.length ≤ r.length := by
  unfold readlineDispatch
  repeat' split
  all_goals simp

theorem readlineStep_input_le (pw : Bool) (st : RlState) (b : Nat) (rest : List Nat) :
    (readlineStep pw st b rest).input.length ≤ rest.length := by
  unfold readlineStep
  by_cases hb : b = 0
  · rw [if_pos hb]
    cases rest with
    | nil => simp
    | cons c r2 => exact (readlineDispatch_input_le pw st c r2).trans (by simp)
  · rw [if_neg hb]
    exact readlineDispatch_input_le pw st b rest

/-- The result of `readlineGo` does not depend on the fuel, as long as the
fuel exceeds the length of the remaining input (each iteration consumes at
least one byte or stops). -/
theorem readlineGo_congr (size : Nat) (pw : Bool) (n : Nat) :
    ∀ (f1 f2 : Nat) (st : RlState), st.input.length ≤ n →
      st.input.length < f1 → st.input.length < f2 →
      readlineGo size pw f1 st = readlineGo size pw f2 st := by
  induction n with
  | zero =>
    intro f1 f2 st h0 h1 h2
    obtain ⟨k1, rfl⟩ : ∃ k, f1 = k + 1 := ⟨f1 - 1, by omega⟩
    obtain ⟨k2, rfl⟩ : ∃ k, f2 = k + 1 := ⟨f2 - 1, by omega⟩
    obtain ⟨i0, bf0, inp0, e0, o0, x0, r0⟩ := st
    simp only [Nat.le_zero, List.length_eq_zero] at h0
    subst h0
    rfl
  | succ n ih =>
    intro f1 f2 st h0 h1 h2
    obtain ⟨k1, rfl⟩ : ∃ k, f1 = k + 1 := ⟨f1 - 1, by omega⟩
    obtain ⟨k2, rfl⟩ : ∃ k, f2 = k + 1 := ⟨f2 - 1, by omega⟩
    obtain ⟨i0, bf0, inp0, e0, o0, x0, r0⟩ := st
    cases inp0 with
    | nil => rfl
    | cons b rest =>
      simp only [List.length_cons] at h0 h1 h2
      rw [readlineGo_succ_cons, readlineGo_succ_cons]
      have hle := readlineStep_input_le pw
        { i := i0, buf := bf0, input := b :: rest, eof := e0, out := o0,
          exited := x0, broke := r0 } b rest
      have hrec := ih k1 k2 (readlineStep pw
        { i := i0, buf := bf0, input := b :: rest, eof := e0, out := o0,
          exited := x0, broke := r0 } b rest) (by omega) (by omega) (by omega)
      rw [hrec]

theorem readlineDispatch_input_irrel (pw : Bool) (st : RlState) (i1 i2 : List Nat)
    (c : Nat) (r : List Nat) :
    readlineDispatch pw { st with input := i1 } c r
      = readlineDispatch pw { st with input := i2 } c r := by
  cases st
  rfl

/-- Counterexample to C5 as stated: on the input NUL NUL CR (with masking on
and buffer garbage 7), the second NUL is processed as a literal character:
a mask character (42) is echoed, the cursor ends at 1, and a zero byte was
stored into the buffer — so a NUL that immediately follows another NUL is
stored and echoed rather than transparently discarded. -/
theorem claim_C5_counterexample :
    42 ∈ (readline 1024 true (fun _ => 7) [0, 0, 13] false).out
    ∧ (readline 1024 true (fun _ => 7) [0, 0, 13] false).i = 1
    ∧ (readline 1024 true (fun _ => 7) [0, 0, 13] false).buf 0 = 0 := by
  refine ⟨by decide, by decide, by decide⟩

/-- C5 amended: a NUL byte read at the start of an input event is discarded
and exactly the next byte is read in its place, so `<char> <NUL>` followed by
a non-NUL byte `b` is equivalent to `<char>` followed by `b`; but the skip
reads exactly one extra byte, so when the byte after a NUL is itself a NUL
it is processed as a literal zero (stored and echoed), not discarded. -/
theorem claim_C5_nul_skip_amended :
    (∀ (size : Nat) (pw : Bool) (i0 : Int) (bf0 : Nat → Nat) (o0 : List Nat)
        (b : Nat) (rest : List Nat) (f1 f2 : Nat),
      i0 < (size : Int) - 1 → ¬ b = 0 →
      rest.length + 2 < f1 → rest.length + 1 < f2 →
      readlineGo size pw f1
        { i := i0, buf := bf0, input := 0 :: b :: rest, eof := false, out := o0,
          exited := false, broke := false }
        = readlineGo size pw f2
          { i := i0, buf := bf0, input := b :: rest, eof := false, out := o0,
            exited := false, broke := false })
    ∧ (∀ (size : Nat) (pw : Bool) (buf0 : Nat → Nat) (b : Nat) (rest : List Nat),
        ¬ b = 0 → 2 ≤ size →
        readline size pw buf0 (0 :: b :: rest) false
          = readline size pw buf0 (b :: rest) false) := by
  have main : ∀ (size : Nat) (pw : Bool) (i0 : Int) (bf0 : Nat → Nat) (o0 : List Nat)
      (b : Nat) (rest : List Nat) (f1 f2 : Nat),
      i0 < (size : Int) - 1 → ¬ b = 0 →
      rest.length + 2 < f1 → rest.length + 1 < f2 →
      readlineGo size pw f1
        { i := i0, buf := bf0, input := 0 :: b :: rest, eof := false, out := o0,
          exited := false, broke := false }
        = readlineGo size pw f2
          { i := i0, buf := bf0, input := b :: rest, eof := false, out := o0,
            exited := false, broke := false } := by
    intro size pw i0 bf0 o0 b rest f1 f2 hi hb h1 h2
    obtain ⟨k1, rfl⟩ : ∃ k, f1 = k + 1 := ⟨f1 - 1, by omega⟩
    obtain ⟨k2, rfl⟩ : ∃ k, f2 = k + 1 := ⟨f2 - 1, by omega⟩
    rw [readlineGo_succ_cons, readlineGo_succ_cons]
    simp only [Bool.false_eq_true, if_false, if_neg (not_le.mpr hi)]
    have hstep : readlineStep pw
        { i := i0, buf := bf0, input := 0 :: b :: rest, eof := false, out := o0,
          exited := false, broke := false } 0 (b :: rest)
        = readlineStep pw
          { i := i0, buf := bf0, input := b :: rest, eof := false, out := o0,
            exited := false, broke := false } b rest := by
      show readlineDispatch pw
          { i := i0, buf := bf0, input := 0 :: b :: rest, eof := false, out := o0,
            exited := false, broke := false } b rest = _
      have hR : readlineStep pw
          { i := i0, buf := bf0, input := b :: rest, eof := false, out := o0,
            exited := false, broke := false } b rest
          = readlineDispatch pw
            { i := i0, buf := bf0, input := b :: rest, eof := false, out := o0,
              exited := false, broke := false } b rest := by
        unfold readlineStep
        rw [if_neg hb]
      rw [hR]
      exact readlineDispatch_input_irrel pw
        { i := i0, buf := bf0, input := [], eof := false, out := o0,
          exited := false, broke := false } (0 :: b :: rest) (b :: rest) b rest
    rw [hstep]
    have hle := readlineStep_input_le pw
      { i := i0, buf := bf0, input := b :: rest, eof := false, out := o0,
        exited := false, broke := false } b rest
    exact readlineGo_congr size pw (readlineStep pw
      { i := i0, buf := bf0, input := b :: rest, eof := false, out := o0,
        exited := false, broke := false } b rest).input.length k1 k2 _
      (Nat.le_refl _) (by omega) (by omega)
  refine ⟨main, ?_⟩
  intro size pw buf0 b rest hb hsz
  show readlineGo size pw ((0 :: b :: rest).length + 1)
      { i := 0, buf := buf0, input := 0 :: b :: rest, eof := false,
        out := showCursorSeq, exited := false, broke := false }
    = readlineGo size pw ((b :: rest).length + 1)
      { i := 0, buf := buf0, input := b :: rest, eof := false,
        out := showCursorSeq, exited := false, broke := false }
  exact main size pw 0 buf0 showCursorSeq b rest _ _ (by omega) hb
    (by simp only [List.length_cons]; omega) (by simp only [List.length_cons]; omega)

/-- Witness for C5 (amended) at a concrete input. -/
theorem claim_C5_nul_skip_amended_witness :
    (¬ 97 = 0) ∧ 2 ≤ 1024
    ∧ readline 1024 false (fun _ => 0) [0, 97, 13] false
      = readline 1024 false (fun _ => 0) [97, 13] false :=
  ⟨by decide, by decide,
    claim_C5_nul_skip_amended.2 1024 false (fun _ => 0) 97 [13] (by decide) (by decide)⟩

/-! ### Claim C6: behaviour when the line buffer fills up -/

/-- Feeding `n` ordinary characters from a cursor `n` short of the bound
drives the cursor exactly to `size - 1`, at which point the loop finalizes
the field at once: the remaining input is left unconsumed and the call
returns normally (no terminator was ever seen). -/
theorem readlineGo_fill (size : Nat) (pw : Bool) :
    ∀ (n : Nat) (i0 : Int) (bf0 : Nat → Nat) (o0 : List Nat) (rest : List Nat) (fuel : Nat),
      i0 + n = (size : Int) - 1 → n < fuel →
      (readlineGo size pw fuel
        { i := i0, buf := bf0, input := List.replicate n 97 ++ rest, eof := false,
          out := o0, exited := false, broke := false }).input = rest
      ∧ (readlineGo size pw fuel
          { i := i0, buf := bf0, input := List.replicate n 97 ++ rest, eof := false,
            out := o0, exited := false, broke := false }).exited = false
      ∧ (readlineGo size pw fuel
          { i := i0, buf := bf0, input := List.replicate n 97 ++ rest, eof := false,
            out := o0, exited := false, broke := false }).broke = false
      ∧ (readlineGo size pw fuel
          { i := i0, buf := bf0, input := List.replicate n 97 ++ rest, eof := false,
            out := o0, exited := false, broke := false }).i = (size : Int) - 1 := by
  intro n
  induction n with
  | zero =>
    intro i0 bf0 o0 rest fuel hi hf
    obtain ⟨f, rfl⟩ : ∃ k, fuel = k + 1 := ⟨fuel - 1, by omega⟩
    have h3 : (size : Int) - 1 ≤ i0 := by omega
    rw [readlineGo_succ]
    simp [h3, rlFinalize]
    omega
  | succ n ih =>
    intro i0 bf0 o0 rest fuel hi hf
    obtain ⟨f, rfl⟩ : ∃ k, fuel = k + 1 := ⟨fuel - 1, by omega⟩
    have hrepl : List.replicate (n + 1) 97 ++ rest = 97 :: (List.replicate n 97 ++ rest) := by
      simp [List.replicate_succ]
    rw [hrepl, readlineGo_succ_cons]
    have hlt : ¬ ((size : Int) - 1 ≤ i0) := by omega
    simp only [Bool.false_eq_true, if_false, if_neg hlt]
    have hstep : readlineStep pw
        { i := i0, buf := bf0, input := 97 :: (List.replicate n 97 ++ rest), eof := false,
          out := o0, exited := false, broke := false } 97 (List.replicate n 97 ++ rest)
        = { i := i0 + 1, buf := fun x => if x = i0.toNat then 97 else bf0 x,
            input := List.replicate n 97 ++ rest, eof := false,
            out := o0 ++ [if pw then 42 else 97], exited := false, broke := false } := by
      simp [readlineStep, readlineDispatch]
    rw [hstep]
    exact ih (i0 + 1) _ _ rest f (by omega) (by omega)

/-- Counterexample to C6 as stated: with the deployed capacity 1024, after
1023 stored characters `readline` returns at once — the following bytes
(here a character and the terminator) are left unconsumed in the stream, and
the return did not go through the line-terminator break.  The claim instead
predicts that the editor keeps consuming the stream up to the terminator. -/
theorem claim_C6_counterexample :
    (readline 1024 false (fun _ => 0) (List.replicate 1023 97 ++ [98, 13]) false).input
      = [98, 13]
    ∧ (readline 1024 false (fun _ => 0) (List.replicate 1023 97 ++ [98, 13]) false).broke
      = false
    ∧ (readline 1024 false (fun _ => 0) (List.replicate 1023 97 ++ [98, 13]) false).exited
      = false := by
  have h := readlineGo_fill 1024 false 1023 0 (fun _ => 0) showCursorSeq [98, 13]
    ((List.replicate 1023 97 ++ [98, 13]).length + 1) (by decide)
    (by simp)
  exact ⟨h.1, h.2.2.1, h.2.1⟩

/-- C6 amended: once the cursor has reached `size - 1` the editing loop does
not run again: the field is finalized and returned immediately, consuming no
further bytes — any unread bytes (including a later terminator) stay in the
stream for the next read; storing a character is what moves the cursor to
the bound (claim C3 covers the bound itself). -/
theorem claim_C6_capacity_amended :
    (∀ (size : Nat) (pw : Bool) (fuel : Nat) (st : RlState),
      st.exited = false → st.broke = false → (size : Int) - 1 ≤ st.i →
      readlineGo size pw (fuel + 1) st = rlFinalize st)
    ∧ (∀ st : RlState, (rlFinalize st).input = st.input ∧ (rlFinalize st).i = st.i
        ∧ (rlFinalize st).exited = st.exited) := by
  constructor
  · intro size pw fuel st hex hbr hle
    have h1 : ¬ (st.exited = true) := by simp [hex]
    have h2 : ¬ (st.broke = true) := by simp [hbr]
    rw [readlineGo_succ, if_neg h1, if_neg h2, if_pos hle]
  · intro st
    exact ⟨rfl, rfl, rfl⟩

/-- Witness for C6 (amended) at a concrete full-buffer state. -/
theorem claim_C6_capacity_amended_witness :
    (({ i := 1023, buf := fun _ => 0, input := [98, 13], eof := false, out := [],
        exited := false, broke := false } : RlState).exited = false)
    ∧ (({ i := 1023, buf := fun _ => 0, input := [98, 13], eof := false, out := [],
          exited := false, broke := false } : RlState).broke = false)
    ∧ ((1024 : Int) - 1
        ≤ ({ i := 1023, buf := fun _ => 0, input := [98, 13], eof := false, out := [],
             exited := false, broke := false } : RlState).i)
    ∧ readlineGo 1024 false (0 + 1)
        { i := 1023, buf := fun _ => 0, input := [98, 13], eof := false, out := [],
          exited := false, broke := false }
      = rlFinalize
          { i := 1023, buf := fun _ => 0, input := [98, 13], eof := false, out := [],
            exited := false, broke := false } :=
  ⟨rfl, rfl, by decide,
    claim_C6_capacity_amended.1 1024 false 0
      { i := 1023, buf := fun _ => 0, input := [98, 13], eof := false, out := [],
        exited := false, broke := false } rfl rfl (by decide)⟩

/-! ### Claim C7: end of the input stream -/

/-- Counterexample to C7 as stated: on a connection whose stream is already
exhausted when negotiation starts, the negotiation loop exits through the
EOF-reads-as-IAC-IAC path with `done = 2`, and the program then writes the
terminal titles, the whole welcome banner and the first Username prompt
(414 bytes, beginning with the title escape 27 107) before the next
`readline` finally terminates the session silently (no credentials logged).
The claim instead predicts immediate termination with no further
prompting. -/
theorem claim_C7_counterexample :
    ((handle_connection [] (fun _ => 0) (fun _ => 0) []).sessOut).take 2 = [27, 107]
    ∧ (handle_connection [] (fun _ => 0) (fun _ => 0) []).sessOut.length = 414
    ∧ (negotiate_telnet []).1.eof = true
    ∧ (negotiate_telnet []).1.done = 2
    ∧ (handle_connection [] (fun _ => 0) (fun _ => 0) []).logs = [] := by
  simp only [handle_connection, negotiate_telnet_lit]
  decide

/-- C7 amended: end of stream mid-field does terminate the session at once
and silently — a `readline` iteration that sees the EOF indicator, or an
empty stream, exits the process without consuming or writing anything
further.  But end of stream during option negotiation does not: the two EOF
reads appear as IAC IAC, the loop returns with `done = 2`, and the session
continues — `handle_connection` still emits the titles, banner and first
prompt — terminating only at the next `readline` on the exhausted stream. -/
theorem claim_C7_eof_amended :
    (∀ (size : Nat) (pw : Bool) (fuel : Nat) (i0 : Int) (bf0 : Nat → Nat)
        (inp o0 : List Nat), i0 < (size : Int) - 1 →
      readlineGo size pw (fuel + 1)
        { i := i0, buf := bf0, input := inp, eof := true, out := o0,
          exited := false, broke := false }
        = { i := i0, buf := bf0, input := inp, eof := true, out := o0,
            exited := true, broke := false })
    ∧ (∀ (size : Nat) (pw : Bool) (fuel : Nat) (i0 : Int) (bf0 : Nat → Nat)
        (o0 : List Nat), i0 < (size : Int) - 1 →
      readlineGo size pw (fuel + 1)
        { i := i0, buf := bf0, input := [], eof := false, out := o0,
          exited := false, broke := false }
        = { i := i0, buf := bf0, input := [], eof := true, out := o0,
            exited := true, broke := false })
    ∧ (∀ s : NegState, s.done < 2 → ∀ fuel : Nat,
        negoGo (fuel + 1) s [] = ({ s with done := 2, eof := true }, []))
    ∧ (∀ (ip : List Nat) (ubuf pbuf : Nat → Nat),
        ((handle_connection ip ubuf pbuf []).sessOut).take 2 = [27, 107]) := by
  refine ⟨?_, ?_, ?_, ?_⟩
  · intro size pw fuel i0 bf0 inp o0 h
    rw [readlineGo_succ]
    simp [not_le.mpr h]
  · intro size pw fuel i0 bf0 o0 h
    rw [readlineGo_succ]
    simp [not_le.mpr h]
  · intro s hdone fuel
    have h : ¬ 2 ≤ s.done := by omega
    rw [negoGo_succ_nil, if_neg h]
  · intro ip ubuf pbuf
    simp only [handle_connection]
    rw [List.take_append_of_le_length (by decide)]
    decide

/-- Witness for C7 (amended) at a concrete mid-field state with the EOF
indicator raised. -/
theorem claim_C7_eof_amended_witness :
    (0 : Int) < (1024 : Int) - 1
    ∧ readlineGo 1024 false (0 + 1)
        { i := 0, buf := fun _ => 0, input := [99], eof := true, out := [],
          exited := false, broke := false }
      = { i := 0, buf := fun _ => 0, input := [99], eof := true, out := [],
          exited := true, broke := false } :=
  ⟨by decide, claim_C7_eof_amended.1 1024 false 0 0 (fun _ => 0) [99] [] (by decide)⟩

/-! ### Claim C8: the handshake timer -/

/-- Counterexample to C8 as stated: after a single terminal-type
sub-negotiation resolves (one capability only), the `alarm(0)` in the SE
branch has already disarmed the timer while `done = 1 < 2` — the timer is
left disarmed although fewer than two capabilities are resolved. -/
theorem claim_C8_counterexample :
    (negoSteps negotiate_armed [255, 250, 24, 0, 120, 255, 240]).armed = false
    ∧ (negoSteps negotiate_armed [255, 250, 24, 0, 120, 255, 240]).done = 1 := by
  simp only [negoSteps_lit]
  decide

/-- C8 amended: the timer is armed when negotiation begins (`alarm(1)` after
`set_options`), and each SE finalization that resolves a capability calls
`alarm(0)` — so the timer is disarmed at the first resolution, possibly
while only one of the two capabilities is resolved.  The abort paths do not
disarm it: the IAC IAC arm and the end-of-stream exit leave the armed flag
unchanged, so the timer can still fire after negotiation has exited through
those paths; when it fires, `SIGALRM_handler` writes its escape sequences
and rejection banner (beginning with the escape byte 27) and exits. -/
theorem claim_C8_timer_amended :
    negotiate_armed.armed = true
    ∧ (∀ (s : NegState) (rest : List Nat),
        s.sb.getD 0 0 = TTYPE ∨ s.sb.getD 0 0 = NAWS →
        ((stepIter s IAC (SE :: rest)).1).armed = false)
    ∧ (∀ (s : NegState) (rest : List Nat),
        ((stepIter s IAC (IAC :: rest)).1).armed = s.armed)
    ∧ (∀ (s : NegState) (fuel : Nat), ((negoGo (fuel + 1) s []).1).armed = s.armed)
    ∧ SIGALRM_handler_out.take 2 = [27, 91] := by
  refine ⟨rfl, ?_, ?_, ?_, by decide⟩
  · intro s rest h
    rcases h with hty | hnaws
    · have hty2 : s.sb[0]?.getD 0 = 24 := by simpa [TTYPE] using hty
      simp [stepIter, SE, TTYPE, hty2]
    · have h31 : s.sb[0]?.getD 0 = 31 := by simpa [NAWS] using hnaws
      have h24 : ¬ s.sb[0]?.getD 0 = 24 := by rw [h31]; decide
      simp [stepIter, SE, TTYPE, NAWS, h24, h31]
  · intro s rest
    rw [stepIter_iac_iac]
  · intro s fuel
    rw [negoGo_succ_nil]
    split <;> rfl

/-- Witness for C8 (amended) at a concrete state holding a terminal-type
sub-negotiation buffer. -/
theorem claim_C8_timer_amended_witness :
    (({ negotiate_armed_lit with sb := [24, 0, 120] } : NegState).sb.getD 0 0 = TTYPE
      ∨ ({ negotiate_armed_lit with sb := [24, 0, 120] } : NegState).sb.getD 0 0 = NAWS)
    ∧ ((stepIter { negotiate_armed_lit with sb := [24, 0, 120] } IAC (SE :: [])).1).armed
        = false :=
  ⟨Or.inl (by decide),
    claim_C8_timer_amended.2.1 { negotiate_armed_lit with sb := [24, 0, 120] } []
      (Or.inl (by decide))⟩

/-! ### Claim C9: finalizing a sub-negotiation at SE -/

theorem send_command_term (s : NegState) (cmd opt : Nat) :
    (send_command s cmd opt).term = s.term := by
  unfold send_command
  split
  · split <;> rfl
  · split
    · split <;> rfl
    · rfl

theorem send_command_width (s : NegState) (cmd opt : Nat) :
    (send_command s cmd opt).terminal_width = s.terminal_width := by
  unfold send_command
  split
  · split <;> rfl
  · split
    · split <;> rfl
    · rfl

/-- C9: receiving SE while a sub-negotiation buffer is held resolves a
capability: when the buffer's leading byte is the terminal-type option the
terminal type becomes the buffer's bytes from index 2 on (the option byte
and the data-direction marker byte are skipped); when it is the window-size
option the width is set from the third buffer byte (the payload's width
field); nothing but these two SE cases ever changes the terminal type or
width, so absent a resolution the snapshot keeps its defaults "ansi" and 80;
and a peer announcing terminal type "xterm" and window width 120 ends
negotiation with exactly that snapshot. -/
theorem claim_C9_se_resolution :
    (∀ (s : NegState) (m : Nat) (name : List Nat) (rest : List Nat),
      s.sb = [TTYPE, m] ++ name → (∀ x ∈ name, ¬ x = 0) → name.length ≤ 1023 →
      stepIter s IAC (SE :: rest)
        = ({ s with
              sb_mode := false, armed := false, term := name, done := s.done + 1 },
           rest))
    ∧ (∀ (s : NegState) (rest : List Nat), s.sb.getD 0 0 = NAWS →
        stepIter s IAC (SE :: rest)
          = ({ s with
                sb_mode := false, armed := false, terminal_width := s.sb.getD 2 0,
                done := s.done + 1 },
             rest))
    ∧ (∀ (s : NegState) (b : Nat) (rest : List Nat), ¬ b = IAC →
        ((stepIter s b rest).1).term = s.term
        ∧ ((stepIter s b rest).1).terminal_width = s.terminal_width)
    ∧ (∀ (s : NegState) (c : Nat) (rest : List Nat), ¬ c = SE →
        ((stepIter s IAC (c :: rest)).1).term = s.term
        ∧ ((stepIter s IAC (c :: rest)).1).terminal_width = s.terminal_width)
    ∧ (∀ (s : NegState) (rest : List Nat),
        ¬ s.sb.getD 0 0 = TTYPE → ¬ s.sb.getD 0 0 = NAWS →
        stepIter s IAC (SE :: rest) = ({ s with sb_mode := false }, rest))
    ∧ ((negotiate_telnet []).1.term = [97, 110, 115, 105]
       ∧ (negotiate_telnet []).1.terminal_width = 80)
    ∧ ((negotiate_telnet [IAC, SB, TTYPE, 0, 120, 116, 101, 114, 109, IAC, SE,
          IAC, SB, NAWS, 0, 120, IAC, SE]).1.term = [120, 116, 101, 114, 109]
       ∧ (negotiate_telnet [IAC, SB, TTYPE, 0, 120, 116, 101, 114, 109, IAC, SE,
            IAC, SB, NAWS, 0, 120, IAC, SE]).1.terminal_width = 120
       ∧ (negotiate_telnet [IAC, SB, TTYPE, 0, 120, 116, 101, 114, 109, IAC, SE,
            IAC, SB, NAWS, 0, 120, IAC, SE]).1.done = 2) := by
  refine ⟨?_, ?_, ?_, ?_, ?_, ?_, ?_⟩
  · intro s m name rest hsb hz hlen
    have h24 : s.sb[0]?.getD 0 = 24 := by simp [hsb, TTYPE]
    simp [stepIter, SE, TTYPE, h24, hsb, takeWhile_nz_all name hz,
      take_ge_length name 1023 hlen]
  · intro s rest hnaws
    have h31 : s.sb[0]?.getD 0 = 31 := by simpa [NAWS] using hnaws
    have h24 : ¬ s.sb[0]?.getD 0 = 24 := by rw [h31]; decide
    have hw : s.sb[2]?.getD 0 = s.sb.getD 2 0 := by simp
    simp [stepIter, SE, TTYPE, NAWS, h24, h31]
  · intro s b rest hb
    unfold stepIter
    rw [if_neg hb]
    constructor
    · split
      · split <;> rfl
      · rfl
    · split
      · split <;> rfl
      · rfl
  · intro s c rest hc
    constructor <;>
    · unfold stepIter
      repeat' split
      all_goals
        simp_all [send_command_term, send_command_width,
          apply_ite (fun p : NegState × List Nat => p.1.term),
          apply_ite (fun p : NegState × List Nat => p.1.terminal_width),
          apply_ite (fun t : NegState => t.term),
          apply_ite (fun t : NegState => t.terminal_width)]
  · intro s rest hnty hnaws
    have h24 : ¬ s.sb[0]?.getD 0 = 24 := by simpa [TTYPE] using hnty
    have h31 : ¬ s.sb[0]?.getD 0 = 31 := by simpa [NAWS] using hnaws
    simp [stepIter, SE, TTYPE, NAWS, h24, h31]
  · constructor <;> (rw [negotiate_telnet_lit]; decide)
  · refine ⟨?_, ?_, ?_⟩ <;> (rw [negotiate_telnet_lit]; decide)

/-- Witness for C9 at a concrete state holding an "x" terminal-type
sub-negotiation. -/
theorem claim_C9_se_resolution_witness :
    (({ negotiate_armed_lit with sb := [TTYPE, 0] ++ [120] } : NegState).sb
      = [TTYPE, 0] ++ [120])
    ∧ (∀ x ∈ [120], ¬ x = 0)
    ∧ ([120] : List Nat).length ≤ 1023
    ∧ stepIter { negotiate_armed_lit with sb := [TTYPE, 0] ++ [120] } IAC (SE :: [5])
      = ({ { negotiate_armed_lit with sb := [TTYPE, 0] ++ [120] } with
            sb_mode := false, armed := false, term := [120],
            done := ({ negotiate_armed_lit with sb := [TTYPE, 0] ++ [120] } : NegState).done + 1 },
         [5]) :=
  ⟨rfl, by decide, by decide,
    claim_C9_se_resolution.1 { negotiate_armed_lit with sb := [TTYPE, 0] ++ [120] }
      0 [120] [5] rfl (by decide) (by decide)⟩

/-! ### Claim C10: the resolution counter does not distinguish kinds -/

/-- C10: the negotiation loop exits as soon as `done` reaches 2, whatever
made it reach 2: with the counter at 2 the loop consumes nothing more, and
two terminal-type sub-negotiations (and no window-size one) end negotiation
successfully, leaving the width at its default 80, the terminal type at the
second response, and the rest of the input unconsumed. -/
theorem claim_C10_done_kind_blind :
    (∀ (s : NegState) (input : List Nat) (fuel : Nat), 2 ≤ s.done →
      negoGo (fuel + 1) s input = (s, input))
    ∧ ((negotiate_telnet ([IAC, SB, TTYPE, 0, 97, IAC, SE]
          ++ [IAC, SB, TTYPE, 0, 98, IAC, SE] ++ [1, 2, 3])).1.done = 2
       ∧ (negotiate_telnet ([IAC, SB, TTYPE, 0, 97, IAC, SE]
            ++ [IAC, SB, TTYPE, 0, 98, IAC, SE] ++ [1, 2, 3])).1.terminal_width = 80
       ∧ (negotiate_telnet ([IAC, SB, TTYPE, 0, 97, IAC, SE]
            ++ [IAC, SB, TTYPE, 0, 98, IAC, SE] ++ [1, 2, 3])).1.term = [98]
       ∧ (negotiate_telnet ([IAC, SB, TTYPE, 0, 97, IAC, SE]
            ++ [IAC, SB, TTYPE, 0, 98, IAC, SE] ++ [1, 2, 3])).2 = [1, 2, 3]) := by
  constructor
  · intro s input fuel h
    exact negoGo_done fuel s input h
  · refine ⟨?_, ?_, ?_, ?_⟩ <;> (rw [negotiate_telnet_lit]; decide)

/-- Witness for C10 at a concrete state with the counter already at 2. -/
theorem claim_C10_done_kind_blind_witness :
    2 ≤ ({ negotiate_armed_lit with done := 2 } : NegState).done
    ∧ negoGo (0 + 1) { negotiate_armed_lit with done := 2 } [5]
      = ({ negotiate_armed_lit with done := 2 }, [5]) :=
  ⟨by decide,
    claim_C10_done_kind_blind.1 { negotiate_armed_lit with done := 2 } [5] 0 (by decide)⟩

end Honeypot
